import Mathlib

/-
Verification of the overlay-timer program (src/video.py) against its
specification.

The program is a PyQt desktop utility with two screens:

* `SetupDialog` collects a duration text and a URL text; `get_values`
  parses the duration with `int(...)` inside `try/except` (defaulting to 0)
  and strips the URL.
* `OverlayWindow` holds `duration` (fixed at construction), `elapsed`
  (starting at 0), a `paused` flag, a repeating one-second `QTimer`, a vlc
  media player and (for .gif assets) a `QMovie` animation.  Its callbacks
  `_tick`, `_toggle_pause`, `_cancel` and `_finish` drive the state machine
  `Created → Playing ⇄ Paused → Finished`.

The shallow embedding below translates those callbacks into pure functions
on an explicit state record.  Python integers are modelled by `Int`
(elapsed, duration), resource handles (vlc player, QMovie) by a small
`ResState` type with the transition functions of their `play` / `pause` /
`stop` methods, and the `QTimer` by a running flag.  The `try/except`
blocks of `_finish` are modelled with an `Except`-monad version
(`_finishGenE`) that is generic in the behaviour of the underlying `stop`
calls, so that "best-effort, never raises" is a provable statement rather
than an assumption.  The Qt event loop is modelled by a guarded `step`
relation: a tick event fires only while the timer is scheduled, button
events fire only while the window is shown and not closed, and the
`finished` signal emissions are counted in the second component of the
system state.
-/

/-- State of an external playback resource (vlc MediaPlayer / QMovie). -/
inductive ResState : Type where
  | stopped : ResState
  | playing : ResState
  | paused : ResState
deriving DecidableEq, Repr

/-- vlc `MediaPlayer.play()` / `QMovie.start()`: starts playback from any
state. -/
def playerPlay (_ : ResState) : ResState := ResState.playing

/-- vlc `MediaPlayer.pause()`: toggles pause; no effect on a stopped
player. -/
def playerPause : ResState → ResState
  | ResState.playing => ResState.paused
  | ResState.paused => ResState.playing
  | ResState.stopped => ResState.stopped

/-- vlc `MediaPlayer.stop()` / `QMovie.stop()`: stops playback from any
state, never raises. -/
def playerStopFn (_ : ResState) : ResState := ResState.stopped

/-- `QMovie.setPaused(b)`: pauses a running movie / resumes a paused one. -/
def movieSetPaused (b : Bool) (r : ResState) : ResState :=
  if b then
    match r with
    | ResState.playing => ResState.paused
    | x => x
  else
    match r with
    | ResState.paused => ResState.playing
    | x => x

/-- The mutable state of one `OverlayWindow` (src/video.py lines 51-234).
`duration` and `elapsed` are the Python ints of line 128; `paused` is the
flag of line 121; `timerRunning` models whether the `QTimer` of line 129
is currently scheduled; `player` and `movie` model the vlc player and the
`QMovie`; `is_gif` is fixed at load time (line 64); `shown` records that
`showEvent` has fired; `closed` that `self.close()` has run. -/
structure OverlayState : Type where
  duration : Int
  elapsed : Int
  paused : Bool
  timerRunning : Bool
  player : ResState
  movie : ResState
  is_gif : Bool
  shown : Bool
  closed : Bool
deriving DecidableEq, Repr

/-- Run an action that may raise; on error keep a fallback value
(the state the resource already had).  This is the semantics of
`try: ... except: pass` around a single stop call. -/
def attempt {α : Type} (act : Except Unit α) (keep : α) : α :=
  match act with
  | Except.ok v => v
  | Except.error _ => keep

/-- `try: act except: pass` as an `Except` computation: it never
propagates the error. -/
def tryCatchE {α : Type} (act : Except Unit α) (keep : α) : Except Unit α :=
  match act with
  | Except.ok v => Except.ok v
  | Except.error _ => Except.ok keep

/-- `OverlayWindow._finish` (lines 224-234), generic in the behaviour of
the three underlying `stop` calls (`ts` = `self.timer.stop`,
`ps` = `self.player.stop`, `ms` = `self.movie.stop`), each wrapped in
`try/except pass`; then `close()` is recorded by setting `closed`.
The `finished.emit()` of line 234 is an effect counted by the system-level
`step` function, not a field of the window state. -/
def _finishGen (ts : Bool → Except Unit Bool)
    (ps : ResState → Except Unit ResState)
    (ms : ResState → Except Unit ResState)
    (s : OverlayState) : OverlayState :=
  { s with
    timerRunning := attempt (ts s.timerRunning) s.timerRunning
    player := attempt (ps s.player) s.player
    movie := if s.is_gif then attempt (ms s.movie) s.movie else s.movie
    closed := true }

/-- `OverlayWindow._finish` as a possibly-raising computation: each stop
call is guarded by its own `try/except`, so an error in a stop call is
swallowed and the method continues. -/
def _finishGenE (ts : Bool → Except Unit Bool)
    (ps : ResState → Except Unit ResState)
    (ms : ResState → Except Unit ResState)
    (s : OverlayState) : Except Unit OverlayState :=
  match tryCatchE (ts s.timerRunning) s.timerRunning with
  | Except.error e => Except.error e
  | Except.ok t =>
    match tryCatchE (ps s.player) s.player with
    | Except.error e => Except.error e
    | Except.ok p =>
      match (if s.is_gif then tryCatchE (ms s.movie) s.movie
             else Except.ok s.movie) with
      | Except.error e => Except.error e
      | Except.ok m =>
        Except.ok { s with timerRunning := t, player := p, movie := m,
                           closed := true }

/-- `QTimer.stop()`: never raises, leaves the timer unscheduled. -/
def timerStopOp (_ : Bool) : Except Unit Bool := Except.ok false

/-- `MediaPlayer.stop()` as a raisable action: in libvlc it succeeds from
any state. -/
def playerStopOp (_ : ResState) : Except Unit ResState :=
  Except.ok ResState.stopped

/-- `QMovie.stop()` as a raisable action: succeeds from any state. -/
def movieStopOp (_ : ResState) : Except Unit ResState :=
  Except.ok ResState.stopped

/-- `OverlayWindow._finish` with the concrete stop behaviours. -/
def _finish (s : OverlayState) : OverlayState :=
  _finishGen timerStopOp playerStopOp movieStopOp s

/-- `OverlayWindow._tick` (lines 192-197): if not paused, increment
`elapsed`; if `elapsed >= duration`, call `_finish`.  The boolean result
records whether `_finish` (and hence `finished.emit()`) ran during the
call. -/
def _tick (s : OverlayState) : OverlayState × Bool :=
  if s.paused = false then
    let s1 := { s with elapsed := s.elapsed + 1 }
    if s1.duration ≤ s1.elapsed then (_finish s1, true) else (s1, false)
  else (s, false)

/-- `OverlayWindow._toggle_pause` (lines 199-215): pausing stops the tick
schedule, pauses audio and (for gifs) the animation; resuming restarts
the schedule and playback. -/
def _toggle_pause (s : OverlayState) : OverlayState :=
  if s.paused = false then
    { s with
      timerRunning := false
      player := playerPause s.player
      movie := if s.is_gif then movieSetPaused true s.movie else s.movie
      paused := true }
  else
    { s with
      timerRunning := true
      player := playerPlay s.player
      movie := if s.is_gif then movieSetPaused false s.movie else s.movie
      paused := false }

/-- `OverlayWindow._cancel` (lines 217-222): stop timer, player and (for
gifs) the movie, then call `_finish`.  The boolean records the
`finished.emit()` of the inner `_finish`. -/
def _cancel (s : OverlayState) : OverlayState × Bool :=
  (_finish
    { s with
      timerRunning := false
      player := playerStopFn s.player
      movie := if s.is_gif then playerStopFn s.movie else s.movie },
   true)

/-- `OverlayWindow.showEvent` (lines 146-151): when the window becomes
visible, start the gif animation (if any) and audio playback. -/
def showEventFn (s : OverlayState) : OverlayState :=
  { s with
    shown := true
    movie := if s.is_gif then playerPlay s.movie else s.movie
    player := playerPlay s.player }

/-- The state of a freshly constructed `OverlayWindow` (lines 54-144):
`elapsed = 0`, not paused, the tick timer already started
(`self.timer.start(1000)`, line 131), playback not yet started, window
not yet shown. -/
def mkOverlay (d : Int) (gif : Bool) : OverlayState :=
  { duration := d
    elapsed := 0
    paused := false
    timerRunning := true
    player := ResState.stopped
    movie := ResState.stopped
    is_gif := gif
    shown := false
    closed := false }

/-- The events the Qt event loop can deliver to the overlay. -/
inductive Event : Type where
  | tick : Event
  | showEvent : Event
  | togglePause : Event
  | cancel : Event
deriving DecidableEq, Repr

/-- System state: the window state plus the number of `finished.emit()`
signal emissions so far. -/
abbrev SysState : Type := OverlayState × Nat

/-- One event delivered by the event loop.  A tick callback runs only
while the `QTimer` is scheduled; `showEvent` fires when the window first
becomes visible; button callbacks run only while the window is shown and
not closed.  Events whose guard fails are not delivered, leaving the
state unchanged. -/
def step (e : Event) (t : SysState) : SysState :=
  match e with
  | Event.tick =>
    if t.1.timerRunning then
      ((_tick t.1).1, t.2 + (if (_tick t.1).2 then 1 else 0))
    else t
  | Event.showEvent =>
    if !t.1.shown && !t.1.closed then (showEventFn t.1, t.2) else t
  | Event.togglePause =>
    if t.1.shown && !t.1.closed then (_toggle_pause t.1, t.2) else t
  | Event.cancel =>
    if t.1.shown && !t.1.closed then
      ((_cancel t.1).1, t.2 + (if (_cancel t.1).2 then 1 else 0))
    else t

/-- `n` consecutive tick events. -/
def ticks : Nat → SysState → SysState
  | 0, t => t
  | n + 1, t => step Event.tick (ticks n t)

/-- Initial system state: a freshly constructed overlay, no signal
emitted yet. -/
def sysInit (d : Int) (gif : Bool) : SysState := (mkOverlay d gif, 0)

/-- The overlay state right after the window first becomes visible:
construction followed by `showEvent`. -/
def shownState (d : Int) (gif : Bool) : OverlayState :=
  { duration := d
    elapsed := 0
    paused := false
    timerRunning := true
    player := ResState.playing
    movie := if gif then ResState.playing else ResState.stopped
    is_gif := gif
    shown := true
    closed := false }

/-- States reachable from construction under the event loop. -/
inductive Reachable (d : Int) (gif : Bool) : SysState → Prop where
  | init : Reachable d gif (sysInit d gif)
  | next : (t : SysState) → (e : Event) → Reachable d gif t →
      Reachable d gif (step e t)

/-- Inductive invariant of the overlay state machine: the duration is
fixed, `elapsed` stays within `[0, d]` and strictly below `d` while the
window is open, a closed window has its timer stopped and player stopped,
and the completion signal has been emitted exactly once iff the window
has closed. -/
def inv (d : Int) (t : SysState) : Prop :=
  t.1.duration = d ∧ 0 ≤ t.1.elapsed ∧ t.1.elapsed ≤ d ∧
  (t.1.closed = false → t.1.elapsed < d) ∧
  (t.1.closed = true → t.1.timerRunning = false ∧ t.1.player = ResState.stopped) ∧
  t.2 = (if t.1.closed = true then 1 else 0)

/-- The whitespace characters stripped by Python around numeric literals
and by `str.strip()` (ASCII subset). -/
def isPySpace (c : Char) : Bool :=
  (c == ' ') || (c == '\t') || (c == '\n') || (c == '\r') ||
    (c == '\x0b') || (c == '\x0c')

/-- Leading and trailing whitespace removed from a character list. -/
def stripList (l : List Char) : List Char :=
  ((l.dropWhile isPySpace).reverse.dropWhile isPySpace).reverse

/-- Python `str.strip()` with no argument: remove leading and trailing
whitespace. -/
def strip (s : String) : String := String.mk (stripList s.data)

/-- Digit tail of a Python decimal integer literal: digits, with single
underscores allowed between digits only. -/
def parseDigitsAux (acc : Nat) : List Char → Option Nat
  | [] => some acc
  | c :: cs =>
    if c.isDigit then parseDigitsAux (acc * 10 + (c.toNat - 48)) cs
    else if c == '_' then
      match cs with
      | [] => none
      | d :: cs2 =>
        if d.isDigit then parseDigitsAux (acc * 10 + (d.toNat - 48)) cs2
        else none
    else none

/-- Nonempty digit sequence (the part of a Python int literal after the
optional sign); must start with a digit. -/
def parseUDigits : List Char → Option Nat
  | [] => none
  | c :: cs => if c.isDigit then parseDigitsAux (c.toNat - 48) cs else none

/-- Python `int(s)` for base 10: strips surrounding whitespace, accepts an
optional sign followed by a nonempty digit sequence; `none` models a
`ValueError`. -/
def pyIntCore (s : String) : Option Int :=
  match stripList s.data with
  | '+' :: rest => (parseUDigits rest).map (fun n => (n : Int))
  | '-' :: rest => (parseUDigits rest).map (fun n => -(n : Int))
  | rest => (parseUDigits rest).map (fun n => (n : Int))

/-- Python `int(s)` as a raising operation: `ValueError` becomes
`Except.error`. -/
def pyIntE (s : String) : Except Unit Int :=
  match pyIntCore s with
  | some n => Except.ok n
  | none => Except.error ()

/-- `SetupDialog.get_values` (lines 44-49): parse the duration text with
`int(...)`, defaulting to 0 when it raises; return it with the stripped
URL text. -/
def get_values (durText urlText : String) : Int × String :=
  (match pyIntE durText with
   | Except.ok n => n
   | Except.error _ => 0,
   strip urlText)

/-- `SetupDialog.get_values` as a possibly-raising computation: the
`int(...)` call sits inside `try/except`, the rest of the method cannot
raise. -/
def get_valuesE (durText urlText : String) : Except Unit (Int × String) :=
  match tryCatchE (pyIntE durText) 0 with
  | Except.error e => Except.error e
  | Except.ok dur => Except.ok (dur, strip urlText)

/-- The condition under which `start_cycle` (lines 239-249) constructs an
`OverlayWindow` from a confirmed setup result: `if dur > 0 and url:`,
where a Python string is truthy iff nonempty. -/
def start_cycle_starts_overlay (dur : Int) (url : String) : Bool :=
  (decide (0 < dur)) && (!url.isEmpty)

/-- `FIXED_SCALE = 0.5` (line 25).  The float 0.5 is a power of two, and
multiplying an integer pixel count by it is exact in IEEE double
arithmetic, so the rational 1/2 models it exactly. -/
def FIXED_SCALE : ℚ := 1 / 2

/-- Python `int(q)` on a float value: truncation toward zero. -/
def pyTrunc (q : ℚ) : Int :=
  if 0 ≤ q then Rat.floor q else -(Rat.floor (-q))

/-- Initial displayed asset size (lines 79-80):
`init_w = int(w0 * FIXED_SCALE)`, `init_h = int(h0 * FIXED_SCALE)` for the
asset's native width `w0` and height `h0`. -/
def init_size (w0 h0 : Nat) : Int × Int :=
  (pyTrunc ((w0 : ℚ) * FIXED_SCALE), pyTrunc ((h0 : ℚ) * FIXED_SCALE))

/-- Whether a character list starts and ends with non-whitespace (vacuous
when empty): the shape of a stripped string. -/
def noSpaceEnds (l : List Char) : Bool :=
  (l.head?.all fun c => !isPySpace c) && (l.getLast?.all fun c => !isPySpace c)

/-! ### Helper lemmas about the overlay state machine -/

/-- Computed form of `_finish`: with the concrete (non-raising) stop
behaviours it stops the timer, the player and (for gifs) the movie, and
closes the window. -/
theorem finish_eq (s : OverlayState) :
    _finish s = { s with timerRunning := false, player := ResState.stopped,
                         movie := if s.is_gif then ResState.stopped else s.movie,
                         closed := true } := rfl

/-- Computed form of the state component of `_cancel`. -/
theorem cancel_fst (s : OverlayState) :
    (_cancel s).1 = { s with timerRunning := false, player := ResState.stopped,
                             movie := if s.is_gif then ResState.stopped else s.movie,
                             closed := true } := by
  cases hg : s.is_gif <;> simp [_cancel, finish_eq, playerStopFn, hg]

/-- The result flag of `_cancel` is always an emission. -/
theorem cancel_snd (s : OverlayState) : (_cancel s).2 = true := rfl

/-- The `try/except` wrapper never propagates an error. -/
theorem tryCatchE_ok {α : Type} (act : Except Unit α) (keep : α) :
    tryCatchE act keep = Except.ok (attempt act keep) := by
  cases act <;> rfl

/-- `_finish` as a computation never raises, whatever the underlying stop
calls do, and its result is the pure `_finishGen`. -/
theorem finishGenE_ok (ts : Bool → Except Unit Bool)
    (ps ms : ResState → Except Unit ResState) (s : OverlayState) :
    _finishGenE ts ps ms s = Except.ok (_finishGen ts ps ms s) := by
  cases hg : s.is_gif <;>
    simp [_finishGenE, _finishGen, tryCatchE_ok, hg]

/-- A tick event is not delivered while the timer is stopped. -/
theorem step_tick_stopped (t : SysState) (h : t.1.timerRunning = false) :
    step Event.tick t = t := by
  simp [step, h]

/-- Any number of tick events leaves a timer-stopped state unchanged. -/
theorem ticks_stopped (m : Nat) (t : SysState) (h : t.1.timerRunning = false) :
    ticks m t = t := by
  induction m with
  | zero => rfl
  | succ n ih =>
    show step Event.tick (ticks n t) = t
    rw [ih, step_tick_stopped t h]

/-- Running `n` ticks from an unpaused, scheduled state that stays short
of the duration just advances `elapsed` by `n`. -/
theorem ticks_run_open (s : OverlayState) (c n : Nat)
    (ht : s.timerRunning = true) (hp : s.paused = false)
    (hn : s.elapsed + n < s.duration) :
    ticks n (s, c) = ({ s with elapsed := s.elapsed + n }, c) := by
  revert hn
  induction n with
  | zero =>
    intro _
    show (s, c) = _
    norm_num
  | succ m ih =>
    intro hn
    have hm : s.elapsed + (m : Int) < s.duration := by push_cast at hn; omega
    have hcond : ¬ (s.duration ≤ s.elapsed + (m : Int) + 1) := by
      push_cast at hn; omega
    show step Event.tick (ticks m (s, c)) = _
    rw [ih hm]
    simp [step, _tick, ht, hp, hcond]
    ring

/-- Running exactly the remaining number of ticks from an unpaused,
scheduled state reaches the finished state and emits the completion
signal once. -/
theorem ticks_run_finish (s : OverlayState) (c n : Nat)
    (ht : s.timerRunning = true) (hp : s.paused = false)
    (h0 : 0 < n) (hn : s.elapsed + n = s.duration) :
    ticks n (s, c) =
      ({ s with elapsed := s.duration, timerRunning := false,
                player := ResState.stopped,
                movie := if s.is_gif then ResState.stopped else s.movie,
                closed := true }, c + 1) := by
  obtain ⟨m, rfl⟩ : ∃ m, n = m + 1 := ⟨n - 1, by omega⟩
  have hm : s.elapsed + (m : Int) < s.duration := by push_cast at hn; omega
  have hcond : s.duration ≤ s.elapsed + (m : Int) + 1 := by
    push_cast at hn; omega
  show step Event.tick (ticks m (s, c)) = _
  rw [ticks_run_open s c m ht hp hm]
  simp [step, _tick, ht, hp, hcond, finish_eq]
  push_cast at hn
  omega

/-- Computed form of delivering `showEvent` to a fresh overlay. -/
theorem step_show_init (d : Int) (gif : Bool) :
    step Event.showEvent (sysInit d gif) = (shownState d gif, 0) := by
  cases gif <;> rfl

/-- Delivering a pause toggle to a shown, open, unpaused overlay. -/
theorem step_toggle_pause_open (s : OverlayState) (c : Nat)
    (hsh : s.shown = true) (hcl : s.closed = false) (hsp : s.paused = false) :
    step Event.togglePause (s, c) =
      ({ s with timerRunning := false, player := playerPause s.player,
                movie := if s.is_gif then movieSetPaused true s.movie
                         else s.movie,
                paused := true }, c) := by
  simp [step, hsh, hcl, _toggle_pause, hsp]

/-- Delivering a pause toggle to a shown, open, paused overlay. -/
theorem step_toggle_pause_resume (s : OverlayState) (c : Nat)
    (hsh : s.shown = true) (hcl : s.closed = false) (hsp : s.paused = true) :
    step Event.togglePause (s, c) =
      ({ s with timerRunning := true, player := ResState.playing,
                movie := if s.is_gif then movieSetPaused false s.movie
                         else s.movie,
                paused := false }, c) := by
  simp [step, hsh, hcl, _toggle_pause, hsp, playerPlay]

/-- A pause toggle is not delivered once the window has closed. -/
theorem step_toggle_closed (s : OverlayState) (c : Nat)
    (hcl : s.closed = true) : step Event.togglePause (s, c) = (s, c) := by
  simp [step, hcl]

/-- Delivering a cancel click to a shown, open overlay. -/
theorem step_cancel_open (s : OverlayState) (c : Nat)
    (hsh : s.shown = true) (hcl : s.closed = false) :
    step Event.cancel (s, c) =
      ({ s with timerRunning := false, player := ResState.stopped,
                movie := if s.is_gif then ResState.stopped else s.movie,
                closed := true }, c + 1) := by
  simp [step, hsh, hcl, cancel_fst, cancel_snd]

/-- The invariant is preserved by every event. -/
theorem inv_step (d : Int) (e : Event) (t : SysState) (h : inv d t) :
    inv d (step e t) := by
  obtain ⟨s, c⟩ := t
  obtain ⟨h1, h2, h3, h4, h5, h6⟩ := h
  dsimp only at h1 h2 h3 h4 h5 h6
  cases e with
  | tick =>
    cases htm : s.timerRunning with
    | false =>
      rw [step_tick_stopped (s, c) htm]
      exact ⟨h1, h2, h3, h4, h5, h6⟩
    | true =>
      have hcl : s.closed = false := by
        cases hclq : s.closed
        · rfl
        · have := (h5 hclq).1
          rw [htm] at this
          exact absurd this (by simp)
      have hlt : s.elapsed < d := h4 hcl
      have hc0 : c = 0 := by simpa [hcl] using h6
      cases hsp : s.paused with
      | true =>
        have heq : step Event.tick (s, c) = (s, c) := by
          simp [step, _tick, htm, hsp]
        rw [heq]
        exact ⟨h1, h2, h3, h4, h5, h6⟩
      | false =>
        by_cases hfin : s.duration ≤ s.elapsed + 1
        · have heq : step Event.tick (s, c) =
              ({ s with elapsed := s.elapsed + 1, timerRunning := false,
                        player := ResState.stopped,
                        movie := if s.is_gif then ResState.stopped else s.movie,
                        closed := true }, c + 1) := by
            simp [step, _tick, htm, hsp, hfin, finish_eq]
          rw [heq]
          refine ⟨h1, ?_, ?_, ?_, ?_, ?_⟩
          · dsimp only; omega
          · dsimp only; omega
          · intro hcf
            dsimp only at hcf
            simp at hcf
          · intro _
            exact ⟨rfl, rfl⟩
          · dsimp only
            simp [hc0]
        · have heq : step Event.tick (s, c) =
              ({ s with elapsed := s.elapsed + 1 }, c) := by
            simp [step, _tick, htm, hsp, hfin]
          rw [heq]
          refine ⟨h1, ?_, ?_, ?_, ?_, ?_⟩
          · dsimp only; omega
          · dsimp only; omega
          · intro _
            dsimp only
            omega
          · intro hcf
            dsimp only at hcf
            simp [hcl] at hcf
          · dsimp only
            exact h6
  | showEvent =>
    by_cases hg : (!s.shown && !s.closed) = true
    · obtain ⟨hsh, hcl⟩ : s.shown = false ∧ s.closed = false := by
        simpa [Bool.and_eq_true, Bool.not_eq_true'] using hg
      have heq : step Event.showEvent (s, c) =
          ({ s with shown := true,
                    movie := if s.is_gif then ResState.playing else s.movie,
                    player := ResState.playing }, c) := by
        simp [step, hsh, hcl, showEventFn, playerPlay]
      rw [heq]
      refine ⟨h1, h2, h3, ?_, ?_, ?_⟩
      · intro _
        exact h4 hcl
      · intro hcf
        dsimp only at hcf
        simp [hcl] at hcf
      · dsimp only
        exact h6
    · have hgf : (!s.shown && !s.closed) = false := by simpa using hg
      have heq : step Event.showEvent (s, c) = (s, c) := by
        simp [step, hgf]
      rw [heq]
      exact ⟨h1, h2, h3, h4, h5, h6⟩
  | togglePause =>
    by_cases hg : (s.shown && !s.closed) = true
    · obtain ⟨hsh, hcl⟩ : s.shown = true ∧ s.closed = false := by
        simpa [Bool.and_eq_true, Bool.not_eq_true'] using hg
      cases hsp : s.paused with
      | false =>
        have heq : step Event.togglePause (s, c) =
            ({ s with timerRunning := false,
                      player := playerPause s.player,
                      movie := if s.is_gif then movieSetPaused true s.movie
                               else s.movie,
                      paused := true }, c) := by
          simp [step, hsh, hcl, _toggle_pause, hsp]
        rw [heq]
        refine ⟨h1, h2, h3, ?_, ?_, ?_⟩
        · intro _
          exact h4 hcl
        · intro hcf
          dsimp only at hcf
          simp [hcl] at hcf
        · dsimp only
          exact h6
      | true =>
        have heq : step Event.togglePause (s, c) =
            ({ s with timerRunning := true,
                      player := ResState.playing,
                      movie := if s.is_gif then movieSetPaused false s.movie
                               else s.movie,
                      paused := false }, c) := by
          simp [step, hsh, hcl, _toggle_pause, hsp, playerPlay]
        rw [heq]
        refine ⟨h1, h2, h3, ?_, ?_, ?_⟩
        · intro _
          exact h4 hcl
        · intro hcf
          dsimp only at hcf
          simp [hcl] at hcf
        · dsimp only
          exact h6
    · have hgf : (s.shown && !s.closed) = false := by simpa using hg
      have heq : step Event.togglePause (s, c) = (s, c) := by
        simp [step, hgf]
      rw [heq]
      exact ⟨h1, h2, h3, h4, h5, h6⟩
  | cancel =>
    by_cases hg : (s.shown && !s.closed) = true
    · obtain ⟨hsh, hcl⟩ : s.shown = true ∧ s.closed = false := by
        simpa [Bool.and_eq_true, Bool.not_eq_true'] using hg
      have hc0 : c = 0 := by simpa [hcl] using h6
      have heq : step Event.cancel (s, c) =
          ({ s with timerRunning := false, player := ResState.stopped,
                    movie := if s.is_gif then ResState.stopped else s.movie,
                    closed := true }, c + 1) := by
        simp [step, hsh, hcl, cancel_fst, cancel_snd]
      rw [heq]
      refine ⟨h1, h2, h3, ?_, ?_, ?_⟩
      · intro hcf
        dsimp only at hcf
        simp at hcf
      · intro _
        exact ⟨rfl, rfl⟩
      · dsimp only
        simp [hc0]
    · have hgf : (s.shown && !s.closed) = false := by simpa using hg
      have heq : step Event.cancel (s, c) = (s, c) := by
        simp [step, hgf]
      rw [heq]
      exact ⟨h1, h2, h3, h4, h5, h6⟩

/-- Every reachable state of an overlay with positive duration satisfies
the invariant. -/
theorem inv_holds (d : Int) (gif : Bool) (hd : 0 < d) (t : SysState)
    (hr : Reachable d gif t) : inv d t := by
  induction hr with
  | init =>
    refine ⟨rfl, le_refl 0, le_of_lt hd, fun _ => hd, fun h => ?_, rfl⟩
    · exact absurd h (by simp [sysInit, mkOverlay])
  | next t e ht ih => exact inv_step d e t ih

/-! ### Helper lemmas about stripping and scaling -/

/-- The first element surviving `dropWhile p` does not satisfy `p`. -/
theorem head_dropWhile_false {α : Type} (p : α → Bool) :
    ∀ (l : List α) (c : α), (l.dropWhile p).head? = some c → p c = false := by
  intro l
  induction l with
  | nil =>
    intro c h
    simp at h
  | cons a t ih =>
    intro c h
    cases hp : p a with
    | true =>
      rw [List.dropWhile_cons, hp] at h
      exact ih c (by simpa using h)
    | false =>
      rw [List.dropWhile_cons, hp] at h
      simp at h
      exact h ▸ hp

/-- Splitting the front-stripped list into the fully stripped list and
the trailing whitespace. -/
theorem dropWhile_eq_strip_append (l : List Char) :
    l.dropWhile isPySpace =
      stripList l ++ ((l.dropWhile isPySpace).reverse.takeWhile isPySpace).reverse := by
  conv_lhs =>
    rw [← List.reverse_reverse (l.dropWhile isPySpace),
        ← List.takeWhile_append_dropWhile isPySpace (l.dropWhile isPySpace).reverse]
  rw [List.reverse_append]
  rfl

/-- `stripList` removes exactly a whitespace prefix and a whitespace
suffix. -/
theorem stripList_decomp (l : List Char) :
    l = l.takeWhile isPySpace ++ stripList l ++
        ((l.dropWhile isPySpace).reverse.takeWhile isPySpace).reverse ∧
    (l.takeWhile isPySpace).all isPySpace = true ∧
    (((l.dropWhile isPySpace).reverse.takeWhile isPySpace).reverse).all isPySpace = true := by
  refine ⟨?_, ?_, ?_⟩
  · conv_lhs => rw [← List.takeWhile_append_dropWhile isPySpace l]
    conv_lhs => rw [dropWhile_eq_strip_append l]
    rw [List.append_assoc]
  · simp only [List.all_eq_true]
    intro x hx
    exact List.mem_takeWhile_imp hx
  · simp only [List.all_eq_true, List.mem_reverse]
    intro x hx
    exact List.mem_takeWhile_imp hx

/-- The stripped list neither starts nor ends with whitespace. -/
theorem stripList_noSpaceEnds (l : List Char) :
    noSpaceEnds (stripList l) = true := by
  unfold noSpaceEnds
  simp only [Bool.and_eq_true]
  constructor
  · cases hs : stripList l with
    | nil => simp
    | cons x xs =>
      have hl1 := dropWhile_eq_strip_append l
      rw [hs, List.cons_append] at hl1
      have hhead : (l.dropWhile isPySpace).head? = some x := by
        rw [hl1]
        rfl
      have hx := head_dropWhile_false isPySpace l x hhead
      simp [hx]
  · cases h : ((l.dropWhile isPySpace).reverse.dropWhile isPySpace).head? with
    | none =>
      have : (stripList l).getLast? = none := by
        rw [stripList, List.getLast?_reverse, h]
      simp [this]
    | some c =>
      have hc := head_dropWhile_false isPySpace (l.dropWhile isPySpace).reverse c h
      have : (stripList l).getLast? = some c := by
        rw [stripList, List.getLast?_reverse, h]
      simp [this, hc]

/-- `int(n * 0.5)` equals the rounded-down half: multiplying by the exact
float 0.5 and truncating the nonnegative result is flooring `n / 2`. -/
theorem floor_half (n : Nat) :
    pyTrunc ((n : ℚ) * FIXED_SCALE) = (n : Int) / 2 := by
  have h0 : (0 : ℚ) ≤ (n : ℚ) * FIXED_SCALE := by
    unfold FIXED_SCALE
    positivity
  unfold pyTrunc
  rw [if_pos h0]
  have h1 : (n : ℚ) * FIXED_SCALE = ((n : Int) : ℚ) / ((2 : Nat) : ℚ) := by
    unfold FIXED_SCALE
    push_cast
    ring
  have h2 : Rat.floor ((n : ℚ) * FIXED_SCALE) =
      Int.floor (((n : Int) : ℚ) / ((2 : Nat) : ℚ)) := by
    rw [h1, Rat.floor_def', ← Rat.floor_def]
  rw [h2, Rat.floor_intCast_div_natCast]
  norm_num

/-- Computed form of the initial asset size: floor of half the native
size in each dimension. -/
theorem init_size_eq (w0 h0 : Nat) :
    init_size w0 h0 = ((w0 : Int) / 2, (h0 : Int) / 2) := by
  unfold init_size
  rw [floor_half, floor_half]

/-! ### Claim theorems -/

/-- C2: for every duration d > 0, after exactly d tick invocations with
the pause flag never set, the overlay reaches the Finished state exactly
once (the window closes and the completion signal is emitted exactly
once, with elapsed = d), and no further tick invocation changes the
state afterwards — in particular no further elapsed increments occur. -/
theorem ticks_reach_finished_once (d : Nat) (gif : Bool) (hd : 0 < d) :
    (ticks d (sysInit (d : Int) gif)).1.closed = true ∧
    (ticks d (sysInit (d : Int) gif)).1.elapsed = (d : Int) ∧
    (ticks d (sysInit (d : Int) gif)).2 = 1 ∧
    ∀ m : Nat, ticks m (ticks d (sysInit (d : Int) gif)) =
      ticks d (sysInit (d : Int) gif) := by
  have hn : (mkOverlay (d : Int) gif).elapsed + (d : Int) =
      (mkOverlay (d : Int) gif).duration := by
    dsimp only [mkOverlay]
    omega
  have hrun := ticks_run_finish (mkOverlay (d : Int) gif) 0 d rfl rfl hd hn
  rw [show sysInit (d : Int) gif = (mkOverlay (d : Int) gif, 0) from rfl, hrun]
  refine ⟨rfl, rfl, rfl, ?_⟩
  intro m
  exact ticks_stopped m _ rfl

/-- Witness for C2 at d = 2, gif = false. -/
theorem ticks_reach_finished_once_witness :
    (ticks 2 (sysInit ((2 : Nat) : Int) false)).1.closed = true ∧
    (ticks 2 (sysInit ((2 : Nat) : Int) false)).1.elapsed = ((2 : Nat) : Int) ∧
    (ticks 2 (sysInit ((2 : Nat) : Int) false)).2 = 1 ∧
    ∀ m : Nat, ticks m (ticks 2 (sysInit ((2 : Nat) : Int) false)) =
      ticks 2 (sysInit ((2 : Nat) : Int) false) :=
  ticks_reach_finished_once 2 false (by decide)

/-- C7: canceling after e ticks (0 ≤ e < d) of a visible overlay
transitions directly to Finished — window closed, timer stopped, player
stopped, animation stopped, completion signalled once — with elapsed
still e, strictly below d. -/
theorem cancel_transitions_to_finished (d e : Nat) (gif : Bool)
    (_hd : 0 < d) (he : e < d) :
    (step Event.cancel (ticks e (step Event.showEvent (sysInit (d : Int) gif)))).1.closed = true ∧
    (step Event.cancel (ticks e (step Event.showEvent (sysInit (d : Int) gif)))).1.timerRunning = false ∧
    (step Event.cancel (ticks e (step Event.showEvent (sysInit (d : Int) gif)))).1.player = ResState.stopped ∧
    (step Event.cancel (ticks e (step Event.showEvent (sysInit (d : Int) gif)))).1.movie = ResState.stopped ∧
    (step Event.cancel (ticks e (step Event.showEvent (sysInit (d : Int) gif)))).1.elapsed = (e : Int) ∧
    (e : Int) < (d : Int) ∧
    (step Event.cancel (ticks e (step Event.showEvent (sysInit (d : Int) gif)))).2 = 1 := by
  rw [step_show_init]
  have hb : (shownState (d : Int) gif).elapsed + (e : Int) <
      (shownState (d : Int) gif).duration := by
    dsimp only [shownState]
    omega
  rw [ticks_run_open (shownState (d : Int) gif) 0 e rfl rfl hb]
  rw [step_cancel_open _ 0 rfl rfl]
  refine ⟨rfl, rfl, rfl, ?_, ?_, ?_, rfl⟩
  · cases gif <;> rfl
  · dsimp only [shownState]
    omega
  · omega

/-- Witness for C7 at d = 3, e = 1, gif = true. -/
theorem cancel_transitions_to_finished_witness :
    (step Event.cancel (ticks 1 (step Event.showEvent (sysInit ((3 : Nat) : Int) true)))).1.closed = true ∧
    (step Event.cancel (ticks 1 (step Event.showEvent (sysInit ((3 : Nat) : Int) true)))).1.timerRunning = false ∧
    (step Event.cancel (ticks 1 (step Event.showEvent (sysInit ((3 : Nat) : Int) true)))).1.player = ResState.stopped ∧
    (step Event.cancel (ticks 1 (step Event.showEvent (sysInit ((3 : Nat) : Int) true)))).1.movie = ResState.stopped ∧
    (step Event.cancel (ticks 1 (step Event.showEvent (sysInit ((3 : Nat) : Int) true)))).1.elapsed = ((1 : Nat) : Int) ∧
    ((1 : Nat) : Int) < ((3 : Nat) : Int) ∧
    (step Event.cancel (ticks 1 (step Event.showEvent (sysInit ((3 : Nat) : Int) true)))).2 = 1 :=
  cancel_transitions_to_finished 3 1 true (by decide) (by decide)

/-- C4: for every duration d > 0 and 0 ≤ k ≤ d, running k ticks of the
visible overlay, pausing, letting m ticks pass while paused (elapsed
unchanged at k), resuming, then running d - k more ticks reaches
Finished with elapsed = d and exactly one completion signal. -/
theorem pause_resume_completes (d k m : Nat) (gif : Bool)
    (hd : 0 < d) (hk : k ≤ d) :
    (ticks m (step Event.togglePause (ticks k (step Event.showEvent (sysInit (d : Int) gif))))).1.elapsed = (k : Int) ∧
    (ticks (d - k) (step Event.togglePause (ticks m (step Event.togglePause (ticks k (step Event.showEvent (sysInit (d : Int) gif))))))).1.closed = true ∧
    (ticks (d - k) (step Event.togglePause (ticks m (step Event.togglePause (ticks k (step Event.showEvent (sysInit (d : Int) gif))))))).1.elapsed = (d : Int) ∧
    (ticks (d - k) (step Event.togglePause (ticks m (step Event.togglePause (ticks k (step Event.showEvent (sysInit (d : Int) gif))))))).2 = 1 := by
  rw [step_show_init]
  by_cases hkd : k < d
  · have hb : (shownState (d : Int) gif).elapsed + (k : Int) <
        (shownState (d : Int) gif).duration := by
      dsimp only [shownState]
      omega
    rw [ticks_run_open (shownState (d : Int) gif) 0 k rfl rfl hb]
    rw [step_toggle_pause_open _ 0 (by rfl) (by rfl) (by rfl)]
    rw [ticks_stopped m _ (by rfl)]
    rw [step_toggle_pause_resume _ 0 (by rfl) (by rfl) (by rfl)]
    rw [ticks_run_finish _ 0 (d - k) (by rfl) (by rfl) (by omega)
          (by dsimp only [shownState]; omega)]
    refine ⟨?_, rfl, ?_, rfl⟩
    · dsimp only [shownState]
      omega
    · rfl
  · have hkd2 : k = d := le_antisymm hk (Nat.le_of_not_lt hkd)
    subst hkd2
    rw [ticks_run_finish (shownState (k : Int) gif) 0 k rfl rfl hd
          (by dsimp only [shownState]; omega)]
    rw [step_toggle_closed _ 1 (by rfl)]
    rw [ticks_stopped m _ (by rfl)]
    rw [step_toggle_closed _ 1 (by rfl)]
    rw [Nat.sub_self]
    exact ⟨rfl, rfl, rfl, rfl⟩

/-- Witness for C4 at d = 3, k = 1, m = 2, gif = true. -/
theorem pause_resume_completes_witness :
    (ticks 2 (step Event.togglePause (ticks 1 (step Event.showEvent (sysInit ((3 : Nat) : Int) true))))).1.elapsed = ((1 : Nat) : Int) ∧
    (ticks (3 - 1) (step Event.togglePause (ticks 2 (step Event.togglePause (ticks 1 (step Event.showEvent (sysInit ((3 : Nat) : Int) true))))))).1.closed = true ∧
    (ticks (3 - 1) (step Event.togglePause (ticks 2 (step Event.togglePause (ticks 1 (step Event.showEvent (sysInit ((3 : Nat) : Int) true))))))).1.elapsed = ((3 : Nat) : Int) ∧
    (ticks (3 - 1) (step Event.togglePause (ticks 2 (step Event.togglePause (ticks 1 (step Event.showEvent (sysInit ((3 : Nat) : Int) true))))))).2 = 1 :=
  pause_resume_completes 3 1 2 true (by decide) (by decide)

/-- C1: in every reachable state of an overlay constructed with a
positive duration d, the duration is fixed at d and
0 ≤ elapsed ≤ duration holds; the completion signal has been emitted at
most once; and whenever elapsed = duration the overlay has terminated:
window closed, tick timer stopped, playback stopped, and the completion
signal emitted exactly once. -/
theorem overlay_reachable_invariant (d : Int) (gif : Bool) (t : SysState)
    (hd : 0 < d) (hr : Reachable d gif t) :
    t.1.duration = d ∧ 0 ≤ t.1.elapsed ∧ t.1.elapsed ≤ t.1.duration ∧
    t.2 ≤ 1 ∧
    (t.1.elapsed = t.1.duration →
      t.1.closed = true ∧ t.1.timerRunning = false ∧
      t.1.player = ResState.stopped ∧ t.2 = 1) := by
  obtain ⟨h1, h2, h3, h4, h5, h6⟩ := inv_holds d gif hd t hr
  refine ⟨h1, h2, ?_, ?_, ?_⟩
  · rw [h1]
    exact h3
  · rw [h6]
    split <;> omega
  · intro he
    have hcl : t.1.closed = true := by
      cases hclq : t.1.closed
      · exfalso
        have := h4 hclq
        rw [h1] at he
        omega
      · rfl
    refine ⟨hcl, (h5 hcl).1, (h5 hcl).2, ?_⟩
    rw [h6, if_pos hcl]

/-- Witness for C1: the state after one tick of a duration-1 overlay. -/
theorem overlay_reachable_invariant_witness :
    (step Event.tick (sysInit 1 false)).1.duration = 1 ∧
    0 ≤ (step Event.tick (sysInit 1 false)).1.elapsed ∧
    (step Event.tick (sysInit 1 false)).1.elapsed ≤
      (step Event.tick (sysInit 1 false)).1.duration ∧
    (step Event.tick (sysInit 1 false)).2 ≤ 1 ∧
    ((step Event.tick (sysInit 1 false)).1.elapsed =
        (step Event.tick (sysInit 1 false)).1.duration →
      (step Event.tick (sysInit 1 false)).1.closed = true ∧
      (step Event.tick (sysInit 1 false)).1.timerRunning = false ∧
      (step Event.tick (sysInit 1 false)).1.player = ResState.stopped ∧
      (step Event.tick (sysInit 1 false)).2 = 1) :=
  overlay_reachable_invariant 1 false (step Event.tick (sysInit 1 false))
    (by decide) (Reachable.next (sysInit 1 false) Event.tick Reachable.init)

/-- C3: `_finish` is idempotent — a second invocation reproduces the same
terminal window state — and, for arbitrary behaviours of the three
underlying stop calls (including ones raising because the resource was
never started or is already stopped), the `try/except`-wrapped method
never raises. -/
theorem finish_idempotent_never_raises (s : OverlayState) :
    _finish (_finish s) = _finish s ∧
    (∀ (ts : Bool → Except Unit Bool)
       (ps ms : ResState → Except Unit ResState),
      _finishGenE ts ps ms s = Except.ok (_finishGen ts ps ms s)) := by
  constructor
  · cases hg : s.is_gif <;> simp [finish_eq, hg]
  · intro ts ps ms
    exact finishGenE_ok ts ps ms s

/-- C10: across the four overlay callbacks, only `_tick` modifies
`elapsed` — adding exactly 1 when the pause flag is unset and leaving it
unchanged otherwise — while `_toggle_pause`, `_cancel` and `_finish`
never modify it; consequently `elapsed` is monotonically non-decreasing
under every delivered event. -/
theorem elapsed_changed_only_by_tick (s : OverlayState) :
    (_tick s).1.elapsed =
      (if s.paused = true then s.elapsed else s.elapsed + 1) ∧
    (_toggle_pause s).elapsed = s.elapsed ∧
    (_cancel s).1.elapsed = s.elapsed ∧
    (_finish s).elapsed = s.elapsed ∧
    (∀ (e : Event) (t : SysState), t.1.elapsed ≤ (step e t).1.elapsed) := by
  refine ⟨?_, ?_, ?_, ?_, ?_⟩
  · cases hsp : s.paused <;>
      by_cases hfin : s.duration ≤ s.elapsed + 1 <;>
        simp [_tick, hsp, hfin, finish_eq]
  · cases hsp : s.paused <;> simp [_toggle_pause, hsp]
  · rw [cancel_fst]
  · rw [finish_eq]
  · intro e t
    obtain ⟨s2, c⟩ := t
    cases e with
    | tick =>
      cases htm : s2.timerRunning with
      | false =>
        rw [step_tick_stopped (s2, c) htm]
      | true =>
        cases hsp : s2.paused with
        | true => simp [step, _tick, htm, hsp]
        | false =>
          by_cases hfin : s2.duration ≤ s2.elapsed + 1 <;>
            simp [step, _tick, htm, hsp, hfin, finish_eq]
    | showEvent =>
      by_cases hg : (!s2.shown && !s2.closed) = true
      · simp [step, hg, showEventFn]
      · have hgf : (!s2.shown && !s2.closed) = false := by simpa using hg
        simp [step, hgf]
    | togglePause =>
      by_cases hg : (s2.shown && !s2.closed) = true
      · cases hsp : s2.paused <;> simp [step, hg, _toggle_pause, hsp]
      · have hgf : (s2.shown && !s2.closed) = false := by simpa using hg
        simp [step, hgf]
    | cancel =>
      by_cases hg : (s2.shown && !s2.closed) = true
      · simp [step, hg, cancel_fst]
      · have hgf : (s2.shown && !s2.closed) = false := by simpa using hg
        simp [step, hgf]

/-- C5: `get_values` parses the duration text to an integer, returning 0
on parse failure (input "abc" yields 0, input "45" yields 45), and
returns the URL text trimmed: the returned URL is the input with exactly
a whitespace prefix and a whitespace suffix removed, and itself neither
starts nor ends with whitespace. -/
theorem get_values_parses_and_strips :
    (∀ u : String, (get_values ("abc") u).1 = 0) ∧
    (∀ u : String, (get_values ("45") u).1 = 45) ∧
    (∀ dt u : String,
      u.data = u.data.takeWhile isPySpace ++ ((get_values dt u).2).data ++
        ((u.data.dropWhile isPySpace).reverse.takeWhile isPySpace).reverse ∧
      (u.data.takeWhile isPySpace).all isPySpace = true ∧
      (((u.data.dropWhile isPySpace).reverse.takeWhile isPySpace).reverse).all isPySpace = true ∧
      noSpaceEnds ((get_values dt u).2).data = true) := by
  refine ⟨fun u => rfl, fun u => rfl, fun dt u => ?_⟩
  have hd := stripList_decomp u.data
  have hn := stripList_noSpaceEnds u.data
  have h2 : ((get_values dt u).2).data = stripList u.data := rfl
  rw [h2]
  exact ⟨hd.1, hd.2.1, hd.2.2, hn⟩

/-- C9: `get_values` is total: the inner `int(...)` can raise (it does on
"abc"), but the surrounding `try/except` catches every parse error, so
the method always returns a pair; a signed numeric string such as "-5" is
not a parse failure and yields -5 rather than 0. -/
theorem get_values_never_raises :
    pyIntE ("abc") = Except.error () ∧
    (∀ dt ut : String, get_valuesE dt ut = Except.ok (get_values dt ut)) ∧
    pyIntCore ("-5") = some (-5) ∧
    (∀ ut : String, get_values ("-5") ut = (-5, strip ut)) := by
  refine ⟨rfl, ?_, by decide, fun ut => rfl⟩
  intro dt ut
  cases hp : pyIntE dt with
  | ok n => simp [get_valuesE, get_values, tryCatchE, hp]
  | error e => simp [get_valuesE, get_values, tryCatchE, hp]

/-- C6: `start_cycle` constructs an overlay window from a confirmed setup
result exactly when the parsed duration is positive and the trimmed URL
is nonempty; an empty URL or a duration ≤ 0 prevents construction. -/
theorem overlay_constructed_iff (dur : Int) (url : String) :
    start_cycle_starts_overlay dur url = true ↔ (0 < dur ∧ url ≠ ("")) := by
  unfold start_cycle_starts_overlay
  constructor
  · intro h
    rw [Bool.and_eq_true] at h
    refine ⟨of_decide_eq_true h.1, ?_⟩
    intro hurl
    rw [hurl] at h
    exact absurd h.2 (by decide)
  · intro h
    rw [Bool.and_eq_true]
    refine ⟨decide_eq_true h.1, ?_⟩
    rw [Bool.not_eq_true']
    cases hu : url.isEmpty
    · rfl
    · exact absurd ((String.isEmpty_iff url).mp (by rw [hu])) h.2

/-- C8 counterexample: for a 3x3 asset the initially displayed width is
`int(3 * 0.5) = 1`, which is not exactly half of 3 (that would be 3/2),
so the claim "the initial displayed size is exactly half the native
resolution" fails at odd native dimensions. -/
theorem init_size_not_exact_half :
    ¬ ((((init_size 3 3).1 : Int) : ℚ) = ((3 : Nat) : ℚ) / 2) := by
  rw [init_size_eq]
  norm_num

/-- C8 amended: the initial displayed asset size is the floor of half the
native resolution in each dimension, `(⌊w0/2⌋, ⌊h0/2⌋)` — exactly half
only when the dimension is even. -/
theorem init_size_floor_half (w0 h0 : Nat) :
    init_size w0 h0 = ((w0 : Int) / 2, (h0 : Int) / 2) :=
  init_size_eq w0 h0
